import Mathlib

/-!
Shallow embedding of the sk-pkg/logger package (src/logger.go) in Lean 4.

The package is a facade over the zap logging engine: option-based
construction (`New`), a shared atomic severity threshold (`SetLevel`),
leveled logging methods that enrich records with a trace identifier taken
from an ambient context, and a choice of sinks (stdout, rotating file).

Go's mutable state is threaded explicitly: a `Manager` value is the state,
operations return their observable output together with the (possibly
updated) manager.  External collaborators (the zap JSON encoder, the
rotatelogs strftime expansion, the rotation-sink open call) are embedded as
explicit definitions or environment parameters, mirroring their documented
behaviour at the call sites the source uses.
-/

namespace SkLogger

/-- zapcore.Level is an int8; we embed it as `Int`.
`DebugLevel = iota - 1 = -1` through `FatalLevel = 5` (src/logger.go lines 17-25). -/
abbrev Level := Int

def DebugLevel : Level := -1

def InfoLevel : Level := 0

def WarnLevel : Level := 1

def ErrorLevel : Level := 2

def DPanicLevel : Level := 3

def PanicLevel : Level := 4

def FatalLevel : Level := 5

/-- zapcore.Level.Enabled / zap.AtomicLevel.Enabled: a record of severity
`lvl` passes the gate iff `lvl >= threshold`. -/
def levelEnabled (threshold lvl : Level) : Bool := threshold ≤ lvl

/-- Go time.Duration: int64 nanoseconds. -/
abbrev Duration := Int

/-- time.Hour in nanoseconds. -/
def Hour : Duration := 3600 * 1000000000

/-- Typed field value, the fragment of zap.Field payloads the source uses
(zap.String for the TraceID plus caller-supplied fields). -/
inductive FieldValue where
  | str (s : String)
  | int (i : Int)
deriving DecidableEq, Repr

/-- A structured logging field (zap.Field). -/
structure Field where
  key : String
  value : FieldValue
deriving DecidableEq, Repr

/-- zap.String(key, val). -/
def zapString (key val : String) : Field := ⟨key, FieldValue.str val⟩

/-- A value stored in a Go context (interface\x7b\x7d at the call sites used:
strings, ints, ...).  `getTraceIDFromContext` type-asserts `.(string)`. -/
inductive GoValue where
  | str (s : String)
  | int (i : Int)
  | boolv (b : Bool)
deriving DecidableEq, Repr

/-- context.Context as the chain of WithValue key/value pairs, most recent
first; `ctxValue` is context.Value lookup. -/
abbrev Context := List (String × GoValue)

def ctxValue (ctx : Context) (key : String) : Option GoValue :=
  match ctx with
  | [] => none
  | (k, v) :: rest => if k = key then some v else ctxValue rest key

/-- Destination a core writes to. -/
inductive Sink where
  | stdout
  | stderr
  | file (pattern : String)
deriving DecidableEq, Repr

/-- Which zapcore encoder `New` builds: console when useColor, else JSON
(src/logger.go lines 267-272). -/
inductive EncoderKind where
  | json
  | console
deriving DecidableEq, Repr

/-- zapcore.CapitalLevelEncoder: upper-case level names
(unknown levels print as LEVEL(n), as in zapcore.Level.CapitalString). -/
def capitalLevelEncoder (l : Level) : String :=
  if l = DebugLevel then "DEBUG"
  else if l = InfoLevel then "INFO"
  else if l = WarnLevel then "WARN"
  else if l = ErrorLevel then "ERROR"
  else if l = DPanicLevel then "DPANIC"
  else if l = PanicLevel then "PANIC"
  else if l = FatalLevel then "FATAL"
  else "LEVEL(" ++ toString l ++ ")"

/-- The fragment of zapcore.EncoderConfig the source sets: the six field
keys, the line ending and the level encoder (src/logger.go lines 61-73). -/
structure EncoderConfig where
  timeKey : String
  levelKey : String
  nameKey : String
  messageKey : String
  callerKey : String
  stacktraceKey : String
  lineEnding : String
  encodeLevel : Level → String

/-- DefaultEncoderConfig (src/logger.go lines 61-73): keys T/L/N/M/C/S,
newline line ending, CapitalLevelEncoder. -/
def DefaultEncoderConfig : EncoderConfig :=
  { timeKey := "T"
    levelKey := "L"
    nameKey := "N"
    messageKey := "M"
    callerKey := "C"
    stacktraceKey := "S"
    lineEnding := "\n"
    encodeLevel := capitalLevelEncoder }

/-- A zapcore.Core as `New` assembles it: one encoder, one sink; its level
enabler is the shared atomic level held by the Manager. -/
structure Core where
  encoder : EncoderKind
  cfg : EncoderConfig
  sink : Sink

/-- The zap.Logger `New` assembles: the core plus the logger's accumulated
name, bound fields, caller-skip and stacktrace threshold. -/
structure ZapLogger where
  core : Core
  name : String
  fields : List Field
  callerSkip : Int
  stacktraceLevel : Level

/-- zap.Logger.With: a child logger with extra bound fields. -/
def ZapLogger.With (l : ZapLogger) (fs : List Field) : ZapLogger :=
  { l with fields := l.fields ++ fs }

/-- zap.Logger.Named: appends a period-joined name segment. -/
def ZapLogger.Named (l : ZapLogger) (s : String) : ZapLogger :=
  if l.name = "" then { l with name := s }
  else { l with name := l.name ++ "." ++ s }

/-- Manager (src/logger.go lines 54-57): the zap logger plus the contents of
the shared zap.AtomicLevel cell. -/
structure Manager where
  Zap : ZapLogger
  level : Level

/-- A log record as the core receives it: severity, the logger's name, the
message, and the bound fields followed by the call's fields. -/
structure Record where
  level : Level
  loggerName : String
  msg : String
  fields : List Field
deriving DecidableEq, Repr

/-- zap.Logger leveled emission: the core's enabler is the shared atomic
level, so the record is produced iff `levelEnabled threshold s`. -/
def ZapLogger.log (l : ZapLogger) (threshold s : Level) (msg : String)
    (fs : List Field) : Option Record :=
  if levelEnabled threshold s then
    some { level := s, loggerName := l.name, msg := msg, fields := l.fields ++ fs }
  else none

/-- Constants from src/logger.go lines 28-34. -/
def defaultDriver : String := "stdout"

def defaultLevel : Level := InfoLevel

def defaultCallerSkip : Int := 1

def defaultStacktraceLevel : Level := DPanicLevel

def TraceIDKey : String := "trace_id"

/-- The option struct (src/logger.go lines 41-51). -/
structure option where
  driver : String
  level : Level
  logPath : String
  encoderConfig : EncoderConfig
  callerSkip : Int
  maxAge : Duration
  rotationTime : Duration
  useColor : Bool
  stacktraceLevel : Level

/-- `type Option func(*option)`.  Because WithLevel / WithStacktraceLevel can
panic, an applied option yields `Option.none` to denote the panic. -/
abbrev Opt := option → Option option

def WithDriver (driver : String) : Opt :=
  fun o => some { o with driver := driver }

/-- The switch shared by WithLevel (lines 95-116) and WithStacktraceLevel
(lines 203-224): the seven known names; anything else panics. -/
def levelOfName (level : String) : Option Level :=
  if level = "debug" then some DebugLevel
  else if level = "info" then some InfoLevel
  else if level = "warn" then some WarnLevel
  else if level = "error" then some ErrorLevel
  else if level = "dpanic" then some DPanicLevel
  else if level = "panic" then some PanicLevel
  else if level = "fatal" then some FatalLevel
  else none

def WithLevel (level : String) : Opt := fun o =>
  match levelOfName level with
  | some l => some { o with level := l }
  | none => none

def WithLogPath (path : String) : Opt :=
  fun o => some { o with logPath := path }

def WithEncoderConfig (config : EncoderConfig) : Opt :=
  fun o => some { o with encoderConfig := config }

def WithCallerSkip (skip : Int) : Opt :=
  fun o => some { o with callerSkip := skip }

def WithMaxAge (maxAge : Duration) : Opt :=
  fun o => some { o with maxAge := maxAge }

def WithRotationTime (rotationTime : Duration) : Opt :=
  fun o => some { o with rotationTime := rotationTime }

def WithColor (useColor : Bool) : Opt :=
  fun o => some { o with useColor := useColor }

def WithStacktraceLevel (level : String) : Opt := fun o =>
  match levelOfName level with
  | some l => some { o with stacktraceLevel := l }
  | none => none

/-- The defaults New initialises before applying options
(src/logger.go lines 248-256); logPath and useColor keep Go zero values. -/
def defaultOption : option :=
  { driver := defaultDriver
    level := defaultLevel
    logPath := ""
    encoderConfig := DefaultEncoderConfig
    callerSkip := defaultCallerSkip
    maxAge := 7 * 24 * Hour
    rotationTime := 24 * Hour
    useColor := false
    stacktraceLevel := defaultStacktraceLevel }

/-- `for _, f := range opts \x7b f(opt) \x7d`; a panicking option aborts New. -/
def applyOpts : List Opt → option → Option option
  | [], o => some o
  | f :: fs, o =>
    match f o with
    | some o2 => applyOpts fs o2
    | none => none

/-- The rotatelogs pattern newFileCore builds: `opt.logPath+"%Y-%m-%d.log"`
(src/logger.go line 318). -/
def rotatePattern (logPath : String) : String := logPath ++ "%Y-%m-%d.log"

/-- The environment's answer to rotatelogs.New(pattern, maxAge, rotationTime):
ok or an open error. -/
abbrev RotateEnv := String → Duration → Duration → Except String Unit

/-- newFileCore (src/logger.go lines 315-328): opens the rotation sink at the
date pattern; on failure propagates the error, else builds the file core. -/
def newFileCore (opt : option) (encoder : EncoderKind) (env : RotateEnv) :
    Except String Core :=
  match env (rotatePattern opt.logPath) opt.maxAge opt.rotationTime with
  | Except.ok _ => Except.ok
      { encoder := encoder, cfg := opt.encoderConfig,
        sink := Sink.file (rotatePattern opt.logPath) }
  | Except.error e => Except.error e

/-- zap.New plus Manager assembly (src/logger.go lines 291-302). -/
def mkManager (opt : option) (core : Core) : Manager :=
  { Zap :=
      { core := core, name := "", fields := [],
        callerSkip := opt.callerSkip, stacktraceLevel := opt.stacktraceLevel }
    level := opt.level }

/-- New (src/logger.go lines 246-303).  `none` denotes a panic while applying
options; otherwise the Except carries either the construction error or the
Manager.  The stdout driver builds a single core writing to os.Stdout; the
file driver defers to newFileCore; any other driver is an error. -/
def New (opts : List Opt) (env : RotateEnv) : Option (Except String Manager) :=
  match applyOpts opts defaultOption with
  | none => none
  | some opt =>
    let encoder : EncoderKind := if opt.useColor then EncoderKind.console else EncoderKind.json
    some (
      if opt.driver = "stdout" then
        Except.ok (mkManager opt { encoder := encoder, cfg := opt.encoderConfig, sink := Sink.stdout })
      else if opt.driver = "file" then
        match newFileCore opt encoder env with
        | Except.ok core => Except.ok (mkManager opt core)
        | Except.error e => Except.error ("failed to create file core: " ++ e)
      else Except.error ("unknown driver: " ++ opt.driver))

/-- getTraceIDFromContext (src/logger.go lines 337-342): the context value at
TraceIDKey when it is a string, else "". -/
def getTraceIDFromContext (ctx : Context) : String :=
  match ctxValue ctx TraceIDKey with
  | some (GoValue.str s) => s
  | _ => ""

/-- Manager.getLoggerWithTraceID (src/logger.go lines 351-358). -/
def Manager.getLoggerWithTraceID (m : Manager) (ctx : Context) : ZapLogger :=
  let traceID := getTraceIDFromContext ctx
  if traceID = "" then m.Zap
  else m.Zap.With [zapString "TraceID" traceID]

/-- Manager.SetLevel (src/logger.go lines 364-366): store into the shared
atomic level cell. -/
def Manager.SetLevel (m : Manager) (level : Level) : Manager :=
  { m with level := level }

/-- The body shared by the leveled methods (Info/Error/Debug/Warn/Fatal/Panic,
src/logger.go lines 374-432): enrich with the trace id, then emit through the
core gated by the shared level.  The manager is returned unchanged, mirroring
that the Go methods write to no Manager field. -/
def Manager.logCall (m : Manager) (s : Level) (ctx : Context) (msg : String)
    (fs : List Field) : Option Record × Manager :=
  let logger := m.getLoggerWithTraceID ctx
  (logger.log m.level s msg fs, m)

def Manager.Info (m : Manager) (ctx : Context) (msg : String) (fs : List Field) :
    Option Record × Manager :=
  m.logCall InfoLevel ctx msg fs

def Manager.Error (m : Manager) (ctx : Context) (msg : String) (fs : List Field) :
    Option Record × Manager :=
  m.logCall ErrorLevel ctx msg fs

def Manager.Debug (m : Manager) (ctx : Context) (msg : String) (fs : List Field) :
    Option Record × Manager :=
  m.logCall DebugLevel ctx msg fs

def Manager.Warn (m : Manager) (ctx : Context) (msg : String) (fs : List Field) :
    Option Record × Manager :=
  m.logCall WarnLevel ctx msg fs

/-- Manager.Named (src/logger.go lines 449-451): a fresh child handle. -/
def Manager.Named (m : Manager) (name : String) : ZapLogger :=
  m.Zap.Named name

/-- Manager.With (src/logger.go lines 460-462): a fresh child handle. -/
def Manager.With (m : Manager) (fs : List Field) : ZapLogger :=
  m.Zap.With fs

/-- Destinations an admitted record of severity `s` is written to: the single
core built by New checks the shared level, then writes to its sink. -/
def emitDestinations (m : Manager) (s : Level) : List Sink :=
  if levelEnabled m.level s then [m.Zap.core.sink] else []

/-- A RotateEnv whose rotation-sink open always succeeds. -/
def env0 : RotateEnv := fun _ _ _ => Except.ok ()

/-- The manager New builds for the default stdout configuration. -/
def stdoutDefaultManager : Manager :=
  mkManager defaultOption
    { encoder := EncoderKind.json, cfg := DefaultEncoderConfig, sink := Sink.stdout }

/-- A concrete manager used to instantiate general theorems. -/
def demoManager : Manager := stdoutDefaultManager

/-- A context carrying trace id "abc123" under the well-known key. -/
def demoCtx : Context := [(TraceIDKey, GoValue.str "abc123")]

/-- A context whose trace value is an int, not a string. -/
def demoCtxInt : Context := [(TraceIDKey, GoValue.int 42)]

/-- The record an Info call on demoManager with demoCtx emits. -/
def demoRecord : Record :=
  { level := InfoLevel, loggerName := "", msg := "hello",
    fields := [zapString "TraceID" "abc123"] }

/-- The record an Info call on demoManager with demoCtxInt emits. -/
def demoRecordPlain : Record :=
  { level := InfoLevel, loggerName := "", msg := "m", fields := [] }

/-- A RotateEnv whose rotation-sink open always fails. -/
def envFail : RotateEnv := fun _ _ _ => Except.error "boom"

/-- Zero-padded two-digit decimal, as strftime renders %m and %d. -/
def pad2 (n : Nat) : String :=
  if n < 10 then "0" ++ toString n else toString n

/-- Zero-padded four-digit decimal, as strftime renders %Y. -/
def pad4 (n : Nat) : String :=
  if n < 10 then "000" ++ toString n
  else if n < 100 then "00" ++ toString n
  else if n < 1000 then "0" ++ toString n
  else toString n

/-- A calendar date as strftime sees it. -/
structure Date where
  year : Nat
  month : Nat
  day : Nat
deriving DecidableEq, Repr

/-- The date pattern "%Y-%m-%d" rendered for a date. -/
def dateString (d : Date) : String :=
  pad4 d.year ++ "-" ++ pad2 d.month ++ "-" ++ pad2 d.day

/-- Models the strftime expansion the external lestrrat-go/file-rotatelogs
sink applies to the pattern the source hands it (src/logger.go line 318):
%Y, %m, %d expand against the current date, a lone trailing % and all other
characters are copied through. -/
def expandChars : List Char → Date → List Char
  | [], _ => []
  | c :: cs, d =>
    if c = '%' then
      match cs with
      | [] => [c]
      | c2 :: cs2 =>
        if c2 = 'Y' then (pad4 d.year).data ++ expandChars cs2 d
        else if c2 = 'm' then (pad2 d.month).data ++ expandChars cs2 d
        else if c2 = 'd' then (pad2 d.day).data ++ expandChars cs2 d
        else c :: c2 :: expandChars cs2 d
    else c :: expandChars cs d

/-- strftime expansion of a string pattern at a date. -/
def expandStrftime (pattern : String) (d : Date) : String :=
  String.mk (expandChars pattern.data d)

/-- JSON values the zap JSON encoder emits for the records at hand:
strings and integers. -/
inductive JVal where
  | str (s : String)
  | num (n : Int)
deriving DecidableEq, Repr

def jvalOfField : FieldValue → JVal
  | FieldValue.str s => JVal.str s
  | FieldValue.int i => JVal.num i

/-- The characters opening and closing a JSON object. -/
def lbrace : Char := Char.ofNat 123

def rbrace : Char := Char.ofNat 125

/-- JSON string escaping of the quote and backslash characters. -/
def escChar (c : Char) : List Char :=
  if c = '"' ∨ c = '\\' then ['\\', c] else [c]

def escList : List Char → List Char
  | [] => []
  | c :: cs => escChar c ++ escList cs

def renderValChars : JVal → List Char
  | JVal.str s => '"' :: (escList s.data ++ ['"'])
  | JVal.num n => (toString n).data

def renderEntryChars (e : String × JVal) : List Char :=
  '"' :: (escList e.1.data ++ '"' :: ':' :: renderValChars e.2)

def renderEntriesChars : List (String × JVal) → List Char
  | [] => []
  | [e] => renderEntryChars e
  | e :: es => renderEntryChars e ++ ',' :: renderEntriesChars es

/-- The key/value list of the object the zap JSON encoder emits for one
entry, in emission order: level, time, logger name, caller, message, the
record's fields, stacktrace; a component is skipped when its configured key
is empty or its datum absent (mirrors zapcore jsonEncoder.EncodeEntry).
Entry time and caller location are environment-supplied. -/
def entryList (cfg : EncoderConfig) (time : String) (caller stack : Option String)
    (r : Record) : List (String × JVal) :=
  (if cfg.levelKey = "" then [] else [(cfg.levelKey, JVal.str (cfg.encodeLevel r.level))]) ++
  (if cfg.timeKey = "" then [] else [(cfg.timeKey, JVal.str time)]) ++
  (if r.loggerName = "" ∨ cfg.nameKey = "" then [] else [(cfg.nameKey, JVal.str r.loggerName)]) ++
  (match caller with
   | some cl => if cfg.callerKey = "" then [] else [(cfg.callerKey, JVal.str cl)]
   | none => []) ++
  (if cfg.messageKey = "" then [] else [(cfg.messageKey, JVal.str r.msg)]) ++
  r.fields.map (fun f => (f.key, jvalOfField f.value)) ++
  (match stack with
   | some st => if cfg.stacktraceKey = "" then [] else [(cfg.stacktraceKey, JVal.str st)]
   | none => [])

/-- One serialized line: the JSON object followed by the configured line
ending. -/
def jsonEncodeEntry (cfg : EncoderConfig) (time : String)
    (caller stack : Option String) (r : Record) : String :=
  String.mk (lbrace :: (renderEntriesChars (entryList cfg time caller stack r) ++ [rbrace]))
    ++ cfg.lineEnding

/-- Parse a JSON string body up to the closing quote, decoding escapes. -/
def parseStrAux : List Char → Option (List Char × List Char)
  | [] => none
  | c :: cs =>
    if c = '"' then some ([], cs)
    else if c = '\\' then
      match cs with
      | [] => none
      | c2 :: cs2 => (parseStrAux cs2).map (fun p => (c2 :: p.1, p.2))
    else (parseStrAux cs).map (fun p => (c :: p.1, p.2))

def numChar (c : Char) : Bool := c.isDigit || c = '-'

def parseNumChars (cs : List Char) : Option (Int × List Char) :=
  let ds := cs.takeWhile numChar
  if ds.isEmpty then none
  else (String.mk ds).toInt?.map (fun n => (n, cs.dropWhile numChar))

/-- Parse one JSON value: a string literal or an integer. -/
def parseVal (cs : List Char) : Option (JVal × List Char) :=
  match cs with
  | [] => none
  | c :: cs2 =>
    if c = '"' then (parseStrAux cs2).map (fun p => (JVal.str (String.mk p.1), p.2))
    else (parseNumChars (c :: cs2)).map (fun p => (JVal.num p.1, p.2))

/-- Parse one "key":value entry. -/
def parseEntry (cs : List Char) : Option ((String × JVal) × List Char) :=
  match cs with
  | [] => none
  | c :: cs2 =>
    if c = '"' then
      match parseStrAux cs2 with
      | none => none
      | some (k, rest) =>
        match rest with
        | [] => none
        | c2 :: rest2 =>
          if c2 = ':' then (parseVal rest2).map (fun p => ((String.mk k, p.1), p.2))
          else none
    else none

/-- Parse comma-separated entries up to the closing brace (fuel-bounded). -/
def parseEntriesAux : Nat → List Char → Option (List (String × JVal) × List Char)
  | 0, _ => none
  | fuel + 1, cs =>
    match parseEntry cs with
    | none => none
    | some (e, rest) =>
      match rest with
      | [] => none
      | c :: rest2 =>
        if c = ',' then (parseEntriesAux fuel rest2).map (fun p => (e :: p.1, p.2))
        else if c = rbrace then some ([e], rest2)
        else none

/-- Parse one serialized log line: a JSON object of entries followed by
nothing or a newline. -/
def parseLine (s : String) : Option (List (String × JVal)) :=
  match s.data with
  | [] => none
  | c :: rest =>
    if c = lbrace then
      match parseEntriesAux rest.length rest with
      | some (es, tail) => if tail = [] ∨ tail = ['\n'] then some es else none
      | none => none
    else none

def lookupKey : List (String × JVal) → String → Option JVal
  | [], _ => none
  | e :: es, k => if e.1 = k then some e.2 else lookupKey es k

/-- A character free of JSON escaping. -/
def safeChar (c : Char) : Bool := c ≠ '"' && c ≠ '\\'

/-- A string none of whose characters needs JSON escaping. -/
def safeStr (s : String) : Bool := s.data.all safeChar

/-- An entry with an escape-free key and an escape-free string value. -/
def strEntry (e : String × JVal) : Bool :=
  safeStr e.1 &&
    match e.2 with
    | JVal.str s => safeStr s
    | JVal.num _ => false

/-- The record an Info call with a trace-free context and no fields emits. -/
def infoRecordOf (msg : String) : Record :=
  { level := InfoLevel, loggerName := "", msg := msg, fields := [] }

/-- The object entries the JSON encoder emits for that record under the
default configuration. -/
def infoEntriesOf (t msg : String) : List (String × JVal) :=
  [("L", JVal.str "INFO"), ("T", JVal.str t), ("M", JVal.str msg)]

/-- C1: a leveled call at severity s is emitted iff s is at or above the
current threshold, and after SetLevel(newLevel) every subsequent emission
decision observes exactly newLevel. -/
theorem levelGate_setLevel_spec (m : Manager) (s : Level) (ctx : Context)
    (msg : String) (fs : List Field) (newLevel : Level) :
    ((m.logCall s ctx msg fs).1.isSome = levelEnabled m.level s) ∧
    ((m.SetLevel newLevel).level = newLevel) ∧
    (((m.SetLevel newLevel).logCall s ctx msg fs).1.isSome
      = levelEnabled newLevel s) := by
  refine ⟨?_, rfl, ?_⟩
  · simp only [Manager.logCall, ZapLogger.log]
    cases h : levelEnabled m.level s <;> simp [h]
  · simp only [Manager.SetLevel, Manager.logCall, ZapLogger.log]
    cases h : levelEnabled newLevel s <;> simp [h]

/-- C8: New with no options yields the default configuration: driver stdout,
level Info, callerSkip 1, maxAge 7 days, rotationTime 24 hours, useColor
false, stacktraceLevel DPanic (and hence a JSON-encoded stdout manager). -/
theorem default_configuration_spec :
    applyOpts [] defaultOption = some defaultOption ∧
    New [] env0 = some (Except.ok (mkManager defaultOption
      { encoder := EncoderKind.json, cfg := DefaultEncoderConfig, sink := Sink.stdout })) ∧
    defaultOption.driver = "stdout" ∧
    defaultOption.level = InfoLevel ∧
    defaultOption.callerSkip = 1 ∧
    defaultOption.maxAge = 7 * 24 * Hour ∧
    defaultOption.rotationTime = 24 * Hour ∧
    defaultOption.useColor = false ∧
    defaultOption.stacktraceLevel = DPanicLevel :=
  ⟨rfl, rfl, rfl, rfl, rfl, rfl, rfl, rfl, rfl⟩


/-- C2: a context holding a non-empty string at "trace_id" makes every
emitted record carry field TraceID=value; a context without such a value
leaves the record unmodified (hence TraceID-free when the base fields are). -/
theorem trace_enrichment_spec (m : Manager) (s : Level) (ctx : Context)
    (msg : String) (fs : List Field) :
    (∀ v, ctxValue ctx TraceIDKey = some (GoValue.str v) → v ≠ "" →
      ∀ r, (m.logCall s ctx msg fs).1 = some r →
        zapString "TraceID" v ∈ r.fields) ∧
    (getTraceIDFromContext ctx = "" →
      ∀ r, (m.logCall s ctx msg fs).1 = some r →
        r.fields = m.Zap.fields ++ fs ∧
        ((∀ f ∈ m.Zap.fields ++ fs, f.key ≠ "TraceID") →
          ∀ f ∈ r.fields, f.key ≠ "TraceID")) := by
  constructor
  · intro v hv hne r hr
    simp only [Manager.logCall, Manager.getLoggerWithTraceID, getTraceIDFromContext,
      hv] at hr
    rw [if_neg hne] at hr
    simp only [ZapLogger.log, ZapLogger.With] at hr
    split at hr
    · cases hr
      simp [zapString]
    · cases hr
  · intro hz r hr
    simp only [Manager.logCall, Manager.getLoggerWithTraceID, hz, if_true] at hr
    simp only [ZapLogger.log] at hr
    split at hr
    · cases hr
      exact ⟨rfl, fun hb f hf => hb f hf⟩
    · cases hr

/-- C2 witness: the concrete trace id "abc123" appears as a TraceID field in
the record emitted for the carrying context. -/
theorem trace_enrichment_spec_witness :
    zapString "TraceID" "abc123" ∈ demoRecord.fields :=
  (trace_enrichment_spec demoManager InfoLevel demoCtx "hello" []).1 "abc123" rfl
    (by decide) demoRecord rfl

/-- C9: a wrongly-typed (non-string) value under "trace_id" is treated like
an absent one: extraction yields "" and the record is unmodified. -/
theorem nonstring_trace_spec (m : Manager) (s : Level) (ctx : Context)
    (msg : String) (fs : List Field) (v : GoValue)
    (hv : ctxValue ctx TraceIDKey = some v) (hns : ∀ t, v ≠ GoValue.str t) :
    getTraceIDFromContext ctx = "" ∧
    ∀ r, (m.logCall s ctx msg fs).1 = some r → r.fields = m.Zap.fields ++ fs := by
  have hz : getTraceIDFromContext ctx = "" := by
    simp only [getTraceIDFromContext, hv]
    cases v with
    | str t => exact absurd rfl (hns t)
    | int i => rfl
    | boolv b => rfl
  refine ⟨hz, fun r hr => ?_⟩
  simp only [Manager.logCall, Manager.getLoggerWithTraceID, hz, if_true] at hr
  simp only [ZapLogger.log] at hr
  split at hr
  · cases hr
    rfl
  · cases hr

/-- C9 witness: an int-valued trace entry yields no trace id and an
unmodified record on a concrete Info call. -/
theorem nonstring_trace_spec_witness :
    getTraceIDFromContext demoCtxInt = "" ∧
    demoRecordPlain.fields = demoManager.Zap.fields ++ [] :=
  ⟨(nonstring_trace_spec demoManager InfoLevel demoCtxInt "m" [] (GoValue.int 42)
      rfl (fun _ h => GoValue.noConfusion h)).1,
   (nonstring_trace_spec demoManager InfoLevel demoCtxInt "m" [] (GoValue.int 42)
      rfl (fun _ h => GoValue.noConfusion h)).2 demoRecordPlain rfl⟩

/-- C10: leveled calls return the Manager unchanged (Zap and the shared
level untouched), Named and With are fresh child handles derived from the
manager logger, and a TraceID attached for one call never leaks into a
later call whose context lacks a trace id. -/
theorem frame_immutability_spec (m : Manager) (s1 s2 : Level)
    (ctx1 ctx2 : Context) (msg1 msg2 : String) (fs1 fs2 : List Field)
    (nm : String)
    (h2 : getTraceIDFromContext ctx2 = "")
    (hbase : (m.Zap.fields ++ fs2).all (fun f => f.key != "TraceID") = true) :
    ((m.logCall s1 ctx1 msg1 fs1).2 = m) ∧
    (m.Named nm = m.Zap.Named nm ∧ (m.Zap.Named nm).fields = m.Zap.fields) ∧
    (m.With fs1 = m.Zap.With fs1 ∧ (m.Zap.With fs1).name = m.Zap.name) ∧
    ((((m.logCall s1 ctx1 msg1 fs1).2).logCall s2 ctx2 msg2 fs2).1.all
      (fun r => r.fields.all (fun f => f.key != "TraceID")) = true) := by
  refine ⟨rfl, ⟨rfl, ?_⟩, ⟨rfl, rfl⟩, ?_⟩
  · unfold ZapLogger.Named
    split <;> rfl
  · show ((m.logCall s2 ctx2 msg2 fs2).1.all
      (fun r => r.fields.all (fun f => f.key != "TraceID")) = true)
    simp only [Manager.logCall, Manager.getLoggerWithTraceID, h2, if_true]
    simp only [ZapLogger.log]
    split
    · simpa using hbase
    · rfl

/-- C10 witness: after a first call with a trace-carrying context, a second
call with an empty context on the unchanged manager emits no TraceID. -/
theorem frame_immutability_spec_witness :
    (demoManager.logCall InfoLevel demoCtx "a" []).2 = demoManager ∧
    (((demoManager.logCall InfoLevel demoCtx "a" []).2).logCall InfoLevel [] "b" []).1.all
      (fun r => r.fields.all (fun f => f.key != "TraceID")) = true :=
  ⟨(frame_immutability_spec demoManager InfoLevel InfoLevel demoCtx [] "a" "b" [] []
      "n" rfl (by decide)).1,
   (frame_immutability_spec demoManager InfoLevel InfoLevel demoCtx [] "a" "b" [] []
      "n" rfl (by decide)).2.2.2⟩

/-- C3: an option set with a driver other than "stdout"/"file" makes New
return a construction error, as does a file driver whose rotation-sink open
fails; in both cases no Manager is produced. -/
theorem construction_failure_spec (opts : List Opt) (env : RotateEnv)
    (opt : option) (hopt : applyOpts opts defaultOption = some opt) :
    (opt.driver ≠ "stdout" → opt.driver ≠ "file" →
      New opts env = some (Except.error ("unknown driver: " ++ opt.driver))) ∧
    (∀ e, opt.driver = "file" →
      env (rotatePattern opt.logPath) opt.maxAge opt.rotationTime = Except.error e →
      New opts env = some (Except.error ("failed to create file core: " ++ e))) := by
  constructor
  · intro h1 h2
    simp only [New, hopt]
    rw [if_neg h1, if_neg h2]
  · intro e hf he
    simp only [New, hopt, hf, if_true, newFileCore, he]
    rw [if_neg (by decide : ¬ ("file" : String) = "stdout")]

/-- C3 witness: driver "invalid" and a failing file-sink open each yield the
corresponding construction error. -/
theorem construction_failure_spec_witness :
    New [WithDriver "invalid"] env0 = some (Except.error "unknown driver: invalid") ∧
    New [WithDriver "file"] envFail
      = some (Except.error "failed to create file core: boom") := by
  constructor
  · exact (construction_failure_spec [WithDriver "invalid"] env0
      { defaultOption with driver := "invalid" } rfl).1 (by decide) (by decide)
  · exact (construction_failure_spec [WithDriver "file"] envFail
      { defaultOption with driver := "file" } rfl).2 "boom" rfl rfl

/-- C7: a level name outside the seven known ones makes WithLevel and
WithStacktraceLevel panic (aborting New), whereas an unknown driver name
makes New return an error instead. -/
theorem invalid_level_panic_spec (s d : String) (o : option) (env : RotateEnv)
    (hs : s ∉ (["debug", "info", "warn", "error", "dpanic", "panic", "fatal"] : List String))
    (hd1 : d ≠ "stdout") (hd2 : d ≠ "file") :
    WithLevel s o = none ∧
    WithStacktraceLevel s o = none ∧
    New [WithLevel s] env = none ∧
    New [WithDriver d] env = some (Except.error ("unknown driver: " ++ d)) := by
  simp only [List.mem_cons, List.not_mem_nil, or_false, not_or] at hs
  obtain ⟨n1, n2, n3, n4, n5, n6, n7⟩ := hs
  have hlv : levelOfName s = none := by
    unfold levelOfName
    rw [if_neg n1, if_neg n2, if_neg n3, if_neg n4, if_neg n5, if_neg n6, if_neg n7]
  have hwl : WithLevel s o = none := by
    unfold WithLevel
    rw [hlv]
  refine ⟨hwl, ?_, ?_, ?_⟩
  · unfold WithStacktraceLevel
    rw [hlv]
  · have : WithLevel s defaultOption = none := by
      unfold WithLevel
      rw [hlv]
    simp only [New, applyOpts, this]
  · simp only [New, applyOpts, WithDriver]
    rw [if_neg ?h1, if_neg ?h2]
    case h1 => simpa using hd1
    case h2 => simpa using hd2

/-- C7 witness: the unknown level name "verbose" panics in both options and
aborts New, while the unknown driver "console" yields an error value. -/
theorem invalid_level_panic_spec_witness :
    WithLevel "verbose" defaultOption = none ∧
    WithStacktraceLevel "verbose" defaultOption = none ∧
    New [WithLevel "verbose"] env0 = none ∧
    New [WithDriver "console"] env0 = some (Except.error "unknown driver: console") :=
  invalid_level_panic_spec "verbose" "console" defaultOption env0 (by decide)
    (by decide) (by decide)

/-- C4 counterexample: the stdout driver builds a single core writing to
os.Stdout, so an admitted Error-severity record goes to standard-out, not to
standard-error as the claim states. -/
theorem stdout_split_counterexample :
    New [] env0 = some (Except.ok stdoutDefaultManager) ∧
    levelEnabled stdoutDefaultManager.level ErrorLevel = true ∧
    emitDestinations stdoutDefaultManager ErrorLevel = [Sink.stdout] ∧
    Sink.stderr ∉ emitDestinations stdoutDefaultManager ErrorLevel :=
  ⟨rfl, rfl, rfl, by decide⟩

/-- C4 amended: with driver "stdout", every admitted record of every
severity is written to standard-out; no severity is routed to stderr. -/
theorem stdout_single_sink_spec (opts : List Opt) (env : RotateEnv)
    (opt : option) (hopt : applyOpts opts defaultOption = some opt)
    (hdrv : opt.driver = "stdout") (m : Manager)
    (hm : New opts env = some (Except.ok m)) :
    m.Zap.core.sink = Sink.stdout ∧
    ∀ s : Level, levelEnabled m.level s = true →
      emitDestinations m s = [Sink.stdout] := by
  simp only [New, hopt, hdrv, if_true, Option.some.injEq, Except.ok.injEq] at hm
  subst hm
  constructor
  · rfl
  · intro s hs
    simp only [mkManager] at hs
    simp [emitDestinations, mkManager, hs]

/-- C4 amended witness: the default stdout manager routes an admitted
Error-severity record to standard-out. -/
theorem stdout_single_sink_spec_witness :
    stdoutDefaultManager.Zap.core.sink = Sink.stdout ∧
    emitDestinations stdoutDefaultManager ErrorLevel = [Sink.stdout] :=
  ⟨(stdout_single_sink_spec [] env0 defaultOption rfl rfl stdoutDefaultManager rfl).1,
   (stdout_single_sink_spec [] env0 defaultOption rfl rfl stdoutDefaultManager rfl).2
     ErrorLevel rfl⟩


/-- Characters free of the strftime escape are copied through unchanged:
expansion distributes over a %-free prefix. -/
theorem expandChars_cons_ne (c : Char) (cs : List Char) (d : Date)
    (hc : c ≠ '%') : expandChars (c :: cs) d = c :: expandChars cs d := by
  rw [expandChars.eq_def]
  simp only []
  rw [if_neg hc]

/-- Characters free of the strftime escape are copied through unchanged:
expansion distributes over a %-free prefix. -/
theorem expandChars_append_of_no_pct (cs p : List Char) (d : Date)
    (h : ∀ c ∈ cs, c ≠ '%') :
    expandChars (cs ++ p) d = cs ++ expandChars p d := by
  induction cs with
  | nil => rfl
  | cons c cs ih =>
    have hc : c ≠ '%' := h c (List.mem_cons_self c cs)
    have ih2 := ih (fun x hx => h x (List.mem_cons_of_mem _ hx))
    rw [List.cons_append, expandChars_cons_ne c _ d hc, ih2]
    rfl

/-- C6: the file driver's sink pattern is logPath ++ "%Y-%m-%d.log", and for
a %-free logPath its strftime expansion at date D is logPath ++ D ++ ".log". -/
theorem file_pattern_spec (logPath : String) (d : Date)
    (h : ∀ c ∈ logPath.data, c ≠ '%') :
    rotatePattern logPath = logPath ++ "%Y-%m-%d.log" ∧
    expandStrftime (rotatePattern logPath) d = logPath ++ dateString d ++ ".log" := by
  refine ⟨rfl, ?_⟩
  unfold expandStrftime rotatePattern
  rw [String.data_append, expandChars_append_of_no_pct _ _ _ h]
  have h2 : expandChars ("%Y-%m-%d.log").data d = (dateString d ++ ".log").data := by
    show expandChars ['%', 'Y', '-', '%', 'm', '-', '%', 'd', '.', 'l', 'o', 'g'] d = _
    simp [expandChars, dateString, String.data_append, List.append_assoc]
  rw [h2]
  apply String.ext
  simp [String.data_append, List.append_assoc]

/-- C6 witness: logPath "/tmp/test-log-" at date 2024-06-01 yields the file
name "/tmp/test-log-2024-06-01.log". -/
theorem file_pattern_spec_witness :
    rotatePattern "/tmp/test-log-" = "/tmp/test-log-" ++ "%Y-%m-%d.log" ∧
    expandStrftime (rotatePattern "/tmp/test-log-") ⟨2024, 6, 1⟩
      = "/tmp/test-log-2024-06-01.log" := by
  have h := file_pattern_spec "/tmp/test-log-" ⟨2024, 6, 1⟩ (by decide)
  exact ⟨h.1, h.2.trans (by decide)⟩


theorem String_mk_data (s : String) : String.mk s.data = s := rfl

theorem escChar_of_safe (c : Char) (hc : safeChar c = true) : escChar c = [c] := by
  simp only [safeChar, Bool.and_eq_true, decide_eq_true_eq] at hc
  unfold escChar
  rw [if_neg]
  simp [hc.1, hc.2]

theorem escList_of_safe (cs : List Char) (h : ∀ c ∈ cs, safeChar c = true) :
    escList cs = cs := by
  induction cs with
  | nil => rfl
  | cons c cs ih =>
    rw [escList, escChar_of_safe c (h c (List.mem_cons_self c cs)),
      ih (fun x hx => h x (List.mem_cons_of_mem _ hx))]
    rfl

theorem parseStrAux_append (cs rest : List Char) (h : ∀ c ∈ cs, safeChar c = true) :
    parseStrAux (cs ++ '"' :: rest) = some (cs, rest) := by
  induction cs with
  | nil =>
    show parseStrAux ('"' :: rest) = some ([], rest)
    rw [parseStrAux.eq_def]
    simp only [if_true]
  | cons c cs ih =>
    have hc := h c (List.mem_cons_self c cs)
    simp only [safeChar, Bool.and_eq_true, decide_eq_true_eq] at hc
    show parseStrAux (c :: (cs ++ '"' :: rest)) = _
    rw [parseStrAux.eq_def]
    simp only []
    rw [if_neg hc.1, if_neg hc.2, ih (fun x hx => h x (List.mem_cons_of_mem _ hx))]
    rfl


theorem safeStr_chars (s : String) (hs : safeStr s = true) :
    ∀ c ∈ s.data, safeChar c = true := by
  simpa [safeStr, List.all_eq_true] using hs

theorem parseVal_str (s : String) (rest : List Char) (hs : safeStr s = true) :
    parseVal (renderValChars (JVal.str s) ++ rest) = some (JVal.str s, rest) := by
  have hall := safeStr_chars s hs
  have hshape : renderValChars (JVal.str s) ++ rest = '"' :: (s.data ++ '"' :: rest) := by
    rw [renderValChars, escList_of_safe s.data hall]
    simp
  rw [hshape, parseVal.eq_def]
  simp only [if_true]
  rw [parseStrAux_append s.data rest hall]
  simp [String_mk_data]

theorem parseEntry_append (e : String × JVal) (rest : List Char)
    (he : strEntry e = true) :
    parseEntry (renderEntryChars e ++ rest) = some (e, rest) := by
  obtain ⟨k, v⟩ := e
  simp only [strEntry, Bool.and_eq_true] at he
  obtain ⟨hk, hv⟩ := he
  obtain ⟨s, rfl, hs⟩ : ∃ s, v = JVal.str s ∧ safeStr s = true := by
    cases v with
    | str s => exact ⟨s, rfl, hv⟩
    | num n => exact absurd hv (by simp)
  have hkall := safeStr_chars k hk
  have hshape : renderEntryChars (k, JVal.str s) ++ rest
      = '"' :: (k.data ++ '"' :: (':' :: (renderValChars (JVal.str s) ++ rest))) := by
    rw [renderEntryChars]
    simp only []
    rw [escList_of_safe k.data hkall]
    simp
  rw [hshape, parseEntry.eq_def]
  simp only [if_true]
  rw [parseStrAux_append k.data _ hkall]
  simp only [if_true]
  rw [parseVal_str s rest hs]
  simp [String_mk_data]


theorem renderEntriesChars_cons2 (e e2 : String × JVal)
    (es2 : List (String × JVal)) :
    renderEntriesChars (e :: e2 :: es2)
      = renderEntryChars e ++ ',' :: renderEntriesChars (e2 :: es2) := rfl

theorem parseEntriesAux_append (es : List (String × JVal)) :
    ∀ (fuel : Nat) (tl : List Char), es ≠ [] →
    (∀ e ∈ es, strEntry e = true) → es.length ≤ fuel →
    parseEntriesAux fuel (renderEntriesChars es ++ rbrace :: tl) = some (es, tl) := by
  induction es with
  | nil => intro fuel tl hne; exact absurd rfl hne
  | cons e es ih =>
    intro fuel tl hne hsafe hfuel
    obtain ⟨f, rfl⟩ : ∃ f, fuel = f + 1 := by
      cases fuel with
      | zero => simp at hfuel
      | succ f => exact ⟨f, rfl⟩
    have he := hsafe e (List.mem_cons_self e es)
    cases es with
    | nil =>
      rw [renderEntriesChars, parseEntriesAux.eq_def]
      simp only []
      rw [parseEntry_append e (rbrace :: tl) he]
      simp only []
      rw [if_neg (by decide : ¬ rbrace = ',')]
      simp only [if_true]
    | cons e2 es2 =>
      have hshape : renderEntriesChars (e :: e2 :: es2) ++ rbrace :: tl
          = renderEntryChars e ++ (',' :: (renderEntriesChars (e2 :: es2) ++ rbrace :: tl)) := by
        rw [renderEntriesChars_cons2]
        simp
      rw [hshape, parseEntriesAux.eq_def]
      simp only []
      rw [parseEntry_append e _ he]
      simp only [if_true]
      rw [ih f tl (fun h => List.noConfusion h) (fun x hx => hsafe x (List.mem_cons_of_mem _ hx))
        (by simpa using Nat.le_of_succ_le_succ hfuel)]
      rfl

theorem length_le_renderEntriesChars (es : List (String × JVal)) :
    es.length ≤ (renderEntriesChars es).length := by
  induction es with
  | nil => simp [renderEntriesChars]
  | cons e es ih =>
    cases es with
    | nil => simp [renderEntriesChars, renderEntryChars]
    | cons e2 es2 =>
      rw [renderEntriesChars_cons2]
      simp only [List.length_append, List.length_cons] at ih ⊢
      omega

theorem parseLine_round (es : List (String × JVal)) (hne : es ≠ [])
    (hsafe : ∀ e ∈ es, strEntry e = true) :
    parseLine (String.mk (lbrace :: (renderEntriesChars es ++ [rbrace])) ++ "\n")
      = some es := by
  have hdata : (String.mk (lbrace :: (renderEntriesChars es ++ [rbrace])) ++ "\n").data
      = lbrace :: (renderEntriesChars es ++ rbrace :: ['\n']) := by
    rw [String.data_append]
    simp
  rw [parseLine.eq_def, hdata]
  simp only [if_true]
  rw [parseEntriesAux_append es _ ['\n'] hne hsafe ?hf]
  case hf =>
    calc es.length ≤ (renderEntriesChars es).length := length_le_renderEntriesChars es
    _ ≤ (renderEntriesChars es ++ rbrace :: ['\n']).length := by simp
  simp


/-- C5: with the default (non-color) configuration, the record an Info call
emits serializes to a parseable JSON line whose level entry is "INFO" and
whose message entry is the call's message. -/
theorem json_info_output_spec (msg t : String) (hmsg : safeStr msg = true)
    (ht : safeStr t = true) :
    (stdoutDefaultManager.Info [] msg []).1 = some (infoRecordOf msg) ∧
    parseLine (jsonEncodeEntry DefaultEncoderConfig t none none (infoRecordOf msg))
      = some (infoEntriesOf t msg) ∧
    lookupKey (infoEntriesOf t msg) "L" = some (JVal.str "INFO") ∧
    lookupKey (infoEntriesOf t msg) "M" = some (JVal.str msg) := by
  refine ⟨rfl, ?_, rfl, rfl⟩
  have hentries : entryList DefaultEncoderConfig t none none (infoRecordOf msg)
      = infoEntriesOf t msg := rfl
  have hle : DefaultEncoderConfig.lineEnding = "\n" := rfl
  unfold jsonEncodeEntry
  rw [hentries, hle]
  refine parseLine_round (infoEntriesOf t msg) (by simp [infoEntriesOf]) ?_
  intro e he
  simp only [infoEntriesOf, List.mem_cons, List.not_mem_nil, or_false] at he
  rcases he with rfl | rfl | rfl
  · decide
  · show (safeStr "T" && safeStr t) = true
    rw [ht, Bool.and_true]
    decide
  · show (safeStr "M" && safeStr msg) = true
    rw [hmsg, Bool.and_true]
    decide

/-- C5 witness: the message "This is an info message" round-trips: the line
parses and yields level "INFO" and the original message. -/
theorem json_info_output_spec_witness :
    (stdoutDefaultManager.Info [] "This is an info message" []).1
      = some (infoRecordOf "This is an info message") ∧
    parseLine (jsonEncodeEntry DefaultEncoderConfig "2024-01-01T00:00:00.000Z"
        none none (infoRecordOf "This is an info message"))
      = some (infoEntriesOf "2024-01-01T00:00:00.000Z" "This is an info message") ∧
    lookupKey (infoEntriesOf "2024-01-01T00:00:00.000Z" "This is an info message") "L"
      = some (JVal.str "INFO") ∧
    lookupKey (infoEntriesOf "2024-01-01T00:00:00.000Z" "This is an info message") "M"
      = some (JVal.str "This is an info message") :=
  json_info_output_spec "This is an info message" "2024-01-01T00:00:00.000Z"
    (by decide) (by decide)

end SkLogger
